import Mathlib

/-!
Shallow embedding of `sqlalchemy_multiconnector/sqlalchemy_multiconnector.py`
(the `SQLConnector` multi-database connector) and proofs about its
documented behaviour.

Conventions of the embedding:
* Python `dict`s are association lists built with `dinsert` (update in
  place when the key exists, append otherwise), looked up with `dlookup`.
* Python exceptions become the `PyErr` sum type returned through `Except`.
* Python truthiness of optional strings / ints is made explicit
  (`truthyS`, empty string and `None` are falsy; `0` and `None` for ports).
* Sessions, engines and query results are modelled abstractly: an engine
  is a record with a `disposed` flag, a query is the list of rows it would
  produce, and the calls a CRUD helper makes on its session are recorded
  as a `SessOp` trace.
-/

instance {ε α : Type} [DecidableEq ε] [DecidableEq α] : DecidableEq (Except ε α) := fun x y =>
  match x, y with
  | .ok a, .ok b =>
    if h : a = b then .isTrue (congrArg Except.ok h)
    else .isFalse (fun hc => h (Except.ok.inj hc))
  | .error a, .error b =>
    if h : a = b then .isTrue (congrArg Except.error h)
    else .isFalse (fun hc => h (Except.error.inj hc))
  | .ok _, .error _ => .isFalse (fun hc => Except.noConfusion hc)
  | .error _, .ok _ => .isFalse (fun hc => Except.noConfusion hc)

/-- Python exception kinds raised by the module. -/
inductive PyErr
  | valueError (msg : String)
  | typeError (msg : String)
  | attributeError (msg : String)
deriving Repr, DecidableEq

/-- Python `dict` assignment `d[k] = v` on an association list:
replace in place if the key is present, append otherwise. -/
def dinsert [BEq K] (d : List (K × α)) (k : K) (v : α) : List (K × α) :=
  if d.any (fun p => p.1 == k) then
    d.map (fun p => if p.1 == k then (k, v) else p)
  else d ++ [(k, v)]

/-- Python `d.get(k)` on an association list. -/
def dlookup [BEq K] (d : List (K × α)) (k : K) : Option α :=
  (d.find? (fun p => p.1 == k)).map (fun p => p.2)

/-- Python `k in d` on an association list. -/
def dcontains [BEq K] (d : List (K × α)) (k : K) : Bool :=
  d.any (fun p => p.1 == k)

/-- The `db_name` argument of `get_uris` / `SQLConnector.__init__`:
a string, a list, a tuple, a set, or `None`. -/
inductive DbName
  | str (s : String)
  | list (names : List String)
  | tuple (names : List String)
  | set (names : List String)
  | pynone
deriving Repr, DecidableEq

/-- Python truthiness of a `db_name` value (`not db_name`). -/
def DbName.falsy : DbName → Bool
  | .str s => s == ""
  | .list names => names.isEmpty
  | .tuple names => names.isEmpty
  | .set names => names.isEmpty
  | .pynone => true

/-- Python truthiness of an optional string (`None` and `""` are falsy). -/
def truthyS (o : Option String) : Bool :=
  match o with
  | some s => s != ""
  | none => false

/-- The `if db_port: uri += ":" + str(db_port)` fragment of `get_uris`
(`None` and `0` are falsy). -/
def portPart (db_port : Option Nat) : String :=
  match db_port with
  | some p => if p != 0 then ":" ++ toString p else ""
  | none => ""

/-- Lines 35-50 of `get_uris`: the base URI before the database name is
appended.  For `sqlite` the trailing slash of the path is stripped and no
credentials appear; for server kinds the user is appended when truthy,
the password (prefixed by a colon) when additionally truthy, then `@`,
the host and the port. -/
def build_base_uri (db_type db_host_or_path : String) (db_port : Option Nat)
    (db_user db_passwd : Option String) : String :=
  if db_type == "sqlite" then
    let path := if db_host_or_path.data.getLast? == some '/' then
        String.mk db_host_or_path.data.dropLast
      else db_host_or_path
    "sqlite:///" ++ path
  else
    let cred := if truthyS db_user then
        db_user.getD "" ++ (if truthyS db_passwd then ":" ++ db_passwd.getD "" else "") ++ "@"
      else ""
    db_type ++ "://" ++ cred ++ db_host_or_path ++ portPart db_port

/-- The dict comprehension `{name: uri + "/" + name for name in db_name}`. -/
def builddict (uri : String) (names : List String) : List (String × String) :=
  names.foldl (fun acc n => dinsert acc n (uri ++ "/" ++ n)) []

/-- The `isinstance(db_name, (list, tuple, set)) and len(db_name) > 0`
branch of `get_uris` for list/tuple arguments: build the dict and add a
`default` alias to the first name when absent.  (For a `set` argument the
indexing `db_name[0]` raises `TypeError`; see `get_uris`.) -/
def get_uris_seq (uri : String) (names : List String) : Except PyErr (List (String × String)) :=
  if names.length > 0 then
    let d := builddict uri names
    .ok (if dcontains d "default" then d
      else dinsert d "default" (uri ++ "/" ++ names.headD ""))
  else .error (.valueError "db_name invalid value")

/-- Embedding of `get_uris(db_type, db_host_or_path, db_port, db_name, db_user, db_passwd)`
(lines 32-61 of the module).  Raises `ValueError` when type, host or name
is falsy; builds the base URI; then maps every requested name to
`uri + "/" + name`, adding a `default` alias to the first name when the
names are a list/tuple and `default` is not among them.  For a `set`
argument without `default` the source evaluates `db_name[0]`, which
raises `TypeError` because sets do not support indexing. -/
def get_uris (db_type db_host_or_path : String) (db_port : Option Nat)
    (db_name : DbName) (db_user db_passwd : Option String) :
    Except PyErr (List (String × String)) :=
  if db_type == "" || db_host_or_path == "" || db_name.falsy then
    .error (.valueError "Not enough data")
  else
    let uri := build_base_uri db_type db_host_or_path db_port db_user db_passwd
    match db_name with
    | .str s => .ok [("default", uri ++ "/" ++ s)]
    | .list names => get_uris_seq uri names
    | .tuple names => get_uris_seq uri names
    | .set names =>
      if names.length > 0 then
        let d := builddict uri names
        if dcontains d "default" then .ok d
        else .error (.typeError "set object is not subscriptable")
      else .error (.valueError "db_name invalid value")
    | .pynone => .error (.valueError "db_name invalid value")

/-- A SQLAlchemy engine, reduced to the one piece of state the module
touches: whether its pool has been disposed (`engine.dispose()`). -/
structure Engine where
  disposed : Bool
deriving Repr, DecidableEq

/-- The state of a `SQLConnector` object after `__init__`:
`connection_uris`, `engines` and `schemas` attributes. -/
structure Connector where
  connection_uris : List (String × String)
  engines : List (String × Engine)
  schemas : Option (List String)
deriving Repr, DecidableEq

/-- Embedding of `SQLConnector.__init__`: validates the type against
`("sqlite", "postgresql", "mysql")`, requires a truthy `db_name`, and for
server kinds truthy `db_user` and `db_passwd`; builds the URI dict with
`get_uris` and one engine per URI; `schemas` is kept only for non-sqlite
types (a single string becoming a one-element list is modelled as the
list itself). -/
def SQLConnector_init (db_type db_host_or_path : String) (db_name : DbName)
    (db_port : Option Nat) (db_schemas : Option (List String))
    (db_user db_passwd : Option String) : Except PyErr Connector :=
  if db_name.falsy then
    .error (.attributeError "Must specify at least one db_name")
  else if db_type == "sqlite" || db_type == "postgresql" || db_type == "mysql" then
    if db_type != "sqlite" && !(!db_name.falsy && truthyS db_user && truthyS db_passwd) then
      .error (.attributeError "db_user and db_password must be declared")
    else
      match get_uris db_type db_host_or_path db_port db_name db_user db_passwd with
      | .error e => .error e
      | .ok uris =>
        .ok { connection_uris := uris,
              engines := uris.map (fun p => (p.1, { disposed := false })),
              schemas := if db_type == "sqlite" then Option.none else db_schemas }
  else .error (.valueError "db_type not in allowed_types")

/-- Calls a CRUD helper makes on its session / the session events a
transactional scope performs. -/
inductive SessEvent
  | commit
  | rollback
  | close
deriving Repr, DecidableEq

/-- Outcome of the caller block run inside `session_scope` (or of the
wrapped function of `manage_session`): normal completion, an
`InvalidRequestError`, or any other exception. -/
inductive BodyResult
  | ok
  | invalidRequest
  | otherError
deriving Repr, DecidableEq

/-- How control leaves the scope: normally, or with the exception
propagating to the caller. -/
inductive ScopeExit
  | normal
  | raised
deriving Repr, DecidableEq

/-- Python `x or default` for an optional string (`None` and `""` falsy). -/
def pyOr (o : Option String) (default : String) : String :=
  match o with
  | some s => if s == "" then default else s
  | none => default

/-- Embedding of `SQLConnector.session_scope` (lines 352-375): resolve the engine name
(`engine_name or "default"`), raise `ValueError` when unknown; otherwise
run the block: on normal completion `commit` then `close` and exit
normally; on `InvalidRequestError` `rollback` then `close` and exit
normally (the fault is swallowed); on any other exception `rollback`,
`close` and re-raise.  The schema-translation binding chosen by
`schema_name` does not affect the event sequence and is kept only as an
argument.  The connector itself is returned unchanged. -/
def session_scope (c : Connector) (engine_name schema_name : Option String)
    (body : BodyResult) :
    Except PyErr (List SessEvent × ScopeExit) × Connector :=
  let name := pyOr engine_name "default"
  match dlookup c.engines name with
  | Option.none => (.error (.valueError ("No engine with name " ++ name)), c)
  | some _ =>
    match body with
    | .ok => (.ok ([.commit, .close], .normal), c)
    | .invalidRequest => (.ok ([.rollback, .close], .normal), c)
    | .otherError => (.ok ([.rollback, .close], .raised), c)

/-- Result of a call to a `@manage_session`-decorated operation:
whether the decorator opened a scope (and on which engine/schema), the
commit/rollback/close events that scope performed, and how the call
exited. -/
structure ManagedOutcome where
  scopeOpened : Option (String × Option String)
  events : List SessEvent
  exit : ScopeExit
deriving Repr, DecidableEq

/-- The `manage_session` decorator (lines 64-77) applied to an operation
whose own outcome is `body`.  When `"session" in kwargs` the function is
called directly: no scope is opened, no session event happens, and any
exception of the body propagates.  Otherwise `db_name` (`kwargs.get("db_name")
or "default"`) and `schema_name` (`kwargs.get("schema_name")`) select a
`session_scope` in which the function runs with the session injected. -/
def manage_session_call (c : Connector) (hasSession : Bool)
    (db_name schema_name : Option String) (body : BodyResult) :
    Except PyErr ManagedOutcome × Connector :=
  if hasSession then
    (.ok { scopeOpened := Option.none, events := [],
           exit := match body with
             | .ok => .normal
             | .invalidRequest => .raised
             | .otherError => .raised }, c)
  else
    let name := pyOr db_name "default"
    match (session_scope c (some name) schema_name body).1 with
    | .error e => (.error e, c)
    | .ok (evs, ex) =>
      (.ok { scopeOpened := some (name, schema_name), events := evs, exit := ex }, c)

/-- Public attribute names of the result object returned by
`connection.execute` in the underlying library (a SQLAlchemy
`ResultProxy`/`CursorResult`): plain identifiers such as `fetchall`.
None of them is the literal string `".fetch_all()"` that
`execute_query` probes with `hasattr`. -/
def cursorResultAttrs : List String :=
  ["fetchall", "fetchone", "fetchmany", "first", "scalar", "keys",
   "close", "rowcount", "returns_rows", "cursor", "connection",
   "lastrowid", "inserted_primary_key"]

/-- Python `hasattr(response, name)` for the query-result object. -/
def hasattr_result (name : String) : Bool :=
  cursorResultAttrs.contains name

/-- Embedding of `SQLConnector.execute_query` (lines 168-184): default the engine name
when `None`, raise `ValueError` for an unknown engine, execute the query
(`backendRows` stands for the rows the database would produce), and
return them only when `hasattr(response, ".fetch_all()")` holds —
otherwise return `None`. -/
def execute_query (c : Connector) (query : String) (engine_name : Option String)
    (backendRows : List (List String)) :
    Except PyErr (Option (List (List String))) × Connector :=
  let name := engine_name.getD "default"
  match dlookup c.engines name with
  | Option.none => (.error (.valueError ("No engine with name " ++ name)), c)
  | some _ =>
    if hasattr_result ".fetch_all()" then (.ok (some backendRows), c)
    else (.ok Option.none, c)

/-- Embedding of `SQLConnector.create_tables` (lines 136-151), reduced to the
`create_all` targets it generates: `schemas = schemas or self.schemas`;
when the result is not `None` the inner loop iterates `self.schemas`
(raising `TypeError` when that is `None`) and emits one
`(engine, schema)` target per pair, otherwise one target per engine with
no schema.  The connector is returned unchanged. -/
def create_tables (c : Connector) (schemas0 : Option (List String)) :
    Except PyErr (List (String × Option String)) × Connector :=
  let schemas : Option (List String) :=
    match schemas0 with
    | some l => if l.isEmpty then c.schemas else some l
    | Option.none => c.schemas
  match schemas with
  | some _ =>
    match c.schemas with
    | some scs =>
      (.ok (c.engines.foldr (fun p acc => scs.map (fun sc => (p.1, some sc)) ++ acc) []), c)
    | Option.none => (.error (.typeError "NoneType object is not iterable"), c)
  | Option.none => (.ok (c.engines.map (fun p => (p.1, Option.none))), c)

/-- Embedding of `SQLConnector.kill` (lines 377-379): dispose every engine; the keys
of the mapping are untouched. -/
def kill (c : Connector) : Connector :=
  { c with engines := c.engines.map (fun p => (p.1, { disposed := true })) }

/-- A one-engine connector used by concrete witnesses. -/
def conn0 : Connector :=
  { connection_uris := [("default", "sqlite:////tmp/app.db")],
    engines := [("default", { disposed := false })],
    schemas := Option.none }

/-- Attribute values of a mapped entity. -/
abbrev Val := String

/-- A mapped entity (ORM instance): its attribute dictionary. -/
structure Entity where
  fields : List (String × Val)
deriving Repr, DecidableEq

/-- Python `hasattr(resource, f)`. -/
def hasattrE (e : Entity) (f : String) : Bool := dcontains e.fields f

/-- Python `getattr(resource, f)` (as an `Option`). -/
def getattrE (e : Entity) (f : String) : Option Val := dlookup e.fields f

/-- Python `setattr(resource, f, v)`. -/
def setattrE (e : Entity) (f : String) (v : Val) : Entity :=
  { fields := dinsert e.fields f v }

/-- The rows of one table, keyed by primary key, as seen through the
session (the identity map). -/
abbrev DB := List (Int × Entity)

/-- Python `session.query(cls).get(pk)`. -/
def dbGet (db : DB) (pk : Int) : Option Entity := dlookup db pk

/-- The session state after the looked-up entity has been mutated. -/
def dbSet (db : DB) (pk : Int) (e : Entity) : DB := dinsert db pk e

/-- Session state after `session.delete(resource)` takes effect. -/
def dbDelete (db : DB) (pk : Int) : DB := db.filter (fun p => !(p.1 == pk))

/-- The calls a CRUD helper makes on its session, recorded as a trace;
`commitOp` never appears in any helper, matching the source comment that
`session.commit()` is executed outside these methods. -/
inductive SessOp
  | queryGet
  | setAttr (f : String) (v : Val)
  | deleteMark
  | addObj
  | commitOp
  | rollbackOp
deriving Repr, DecidableEq

/-- The `for field, new_value in updated_fields.items()` loop of
`update_resource`: apply each field the entity has; at the first field it
lacks either stop with `ValueError` (`raise_if_bad_field`) or skip it
(`continue`).  Returns the mutated entity, the `setattr` trace, and the
error if one was raised. -/
def apply_fields (r : Entity) (upd : List (String × Val)) (raise_if_bad_field : Bool) :
    Entity × List SessOp × Option PyErr :=
  match upd with
  | [] => (r, [], Option.none)
  | (f, v) :: rest =>
    if hasattrE r f then
      let res := apply_fields (setattrE r f v) rest raise_if_bad_field
      (res.1, .setAttr f v :: res.2.1, res.2.2)
    else if raise_if_bad_field then
      (r, [], some (.valueError ("Table has no column " ++ f)))
    else apply_fields r rest raise_if_bad_field

/-- Embedding of `SQLConnector.update_resource` (lines 325-350): look the resource up
by primary key, `ValueError` when absent; otherwise run the field loop.
Returns the result (or raised error), the session state on exit, and the
trace of session calls. -/
def update_resource (db : DB) (pk : Int) (updated_fields : List (String × Val))
    (raise_if_bad_field : Bool) : Except PyErr Bool × DB × List SessOp :=
  match dbGet db pk with
  | Option.none => (.error (.valueError "No record with this pk"), db, [.queryGet])
  | some r =>
    let res := apply_fields r updated_fields raise_if_bad_field
    match res.2.2 with
    | some e => (.error e, dbSet db pk res.1, .queryGet :: res.2.1)
    | Option.none => (.ok true, dbSet db pk res.1, .queryGet :: res.2.1)

/-- Embedding of `SQLConnector.delete_resource` (lines 240-253): look the resource up
by primary key; delete it when present; return `True` either way. -/
def delete_resource (db : DB) (pk : Int) : Except PyErr Bool × DB × List SessOp :=
  match dbGet db pk with
  | Option.none => (.ok true, db, [.queryGet])
  | some _ => (.ok true, dbDelete db pk, [.queryGet, .deleteMark])

/-- The pagination tail of `SQLConnector.compose_filter_query`
(lines 196-218).  `rows` stands for the sequence the filtered (and
projected) query would produce; `query.count()` is its length,
`slice(offset, offset + limit)`, `limit(limit)` and `offset(offset)`
are the corresponding list operations.  `total_count` starts at `0` and
is set to the pre-slice count when `limit or offset` is truthy; slicing
is then applied following the `limit and offset` / `limit` / `offset`
cascade. -/
def compose_filter_query {α : Type} (rows : List α) (limit offset : Nat) :
    Nat × List α :=
  let total_count := if limit != 0 || offset != 0 then rows.length else 0
  let query :=
    if limit != 0 && offset != 0 then (rows.drop offset).take limit
    else if limit != 0 then rows.take limit
    else if offset != 0 then rows.drop offset
    else rows
  (total_count, query)

/-- Embedding of `SQLConnector.list_resources` (lines 288-323): reject `limit > 1000`
with `ValueError` before anything else; otherwise compose the query,
evaluate it (`query.all()`), fall back to the page length when
`total_count` is falsy, and return `(total, resources)`. -/
def list_resources {α : Type} (rows : List α) (limit offset : Nat) :
    Except PyErr (Nat × List α) :=
  if limit > 1000 then .error (.valueError "Limit out of bounds")
  else
    let tq := compose_filter_query rows limit offset
    let resources_list := tq.2
    let total_count := if tq.1 == 0 then resources_list.length else tq.1
    .ok (total_count, resources_list)





theorem dlookup_isSome [BEq K] (d : List (K × α)) (k : K) :
    (dlookup d k).isSome = dcontains d k := by
  unfold dlookup dcontains
  induction d with
  | nil => simp [List.find?]
  | cons p t ih =>
    by_cases h : p.1 == k <;> simp [List.find?, h, ih]

theorem dlookup_mem [BEq K] [LawfulBEq K] (d : List (K × α)) (k : K) (v : α)
    (h : dlookup d k = some v) : (k, v) ∈ d := by
  unfold dlookup at h
  cases hf : d.find? (fun p => p.1 == k) with
  | none => rw [hf] at h; simp at h
  | some q =>
    rw [hf] at h
    simp at h
    have hq := List.find?_some hf
    have hmem := List.mem_of_find?_eq_some hf
    have hqe : q = (k, v) := by
      cases q
      simp_all
    rwa [hqe] at hmem

theorem dinsert_upd_fst [BEq K] [LawfulBEq K] (k : K) (v : α) (p : K × α) :
    (if p.1 == k then (k, v) else p).1 = p.1 := by
  by_cases h : p.1 == k
  · simp only [h, if_true]
    exact (by simpa using h : p.1 = k).symm
  · simp [h]

theorem find?_map_dinsert [BEq K] [LawfulBEq K] (t : List (K × α)) (k k' : K) (v : α) :
    (t.map (fun p => if p.1 == k then (k, v) else p)).find? (fun p => p.1 == k') =
      (t.find? (fun p => p.1 == k')).map (fun p => if p.1 == k then (k, v) else p) := by
  rw [List.find?_map]
  have hpred : ((fun p : K × α => p.1 == k') ∘ (fun p => if p.1 == k then (k, v) else p)) =
      (fun p : K × α => p.1 == k') := by
    funext p
    simp [Function.comp, dinsert_upd_fst]
  rw [hpred]

theorem dlookup_dinsert [BEq K] [LawfulBEq K] (d : List (K × α)) (k k' : K) (v : α) :
    dlookup (dinsert d k v) k' = if k == k' then some v else dlookup d k' := by
  unfold dlookup dinsert
  by_cases hc : d.any (fun p => p.1 == k)
  · rw [if_pos hc, find?_map_dinsert]
    by_cases hk : k = k'
    · subst hk
      simp only [BEq.refl, if_true]
      obtain ⟨q, hq⟩ : ∃ q, d.find? (fun p => p.1 == k) = some q := by
        cases hfq : d.find? (fun p => p.1 == k) with
        | none =>
          rw [List.find?_eq_none] at hfq
          simp only [List.any_eq_true] at hc
          obtain ⟨q, hmem, hqk⟩ := hc
          exact absurd hqk (by simp [hfq q hmem])
        | some q => exact ⟨q, rfl⟩
      have hqk := List.find?_some hq
      rw [hq]
      simp [hqk]
    · have hbk : (k == k') = false := by simpa using hk
      simp only [hbk, Bool.false_eq_true, if_false]
      cases hfq : d.find? (fun p => p.1 == k') with
      | none => simp
      | some q =>
        have hqk' : q.1 = k' := by simpa using List.find?_some hfq
        have hqnk : (q.1 == k) = false := by
          rw [hqk']
          simpa using fun hh => hk hh.symm
        simp [hqnk]
  · rw [if_neg hc, List.find?_append]
    have hnod : ∀ p ∈ d, (p.1 == k) = false := by
      intro p hp
      by_contra hcon
      have : d.any (fun p => p.1 == k) := List.any_eq_true.mpr ⟨p, hp, by simpa using hcon⟩
      exact hc this
    by_cases hk : k = k'
    · subst hk
      have h1 : d.find? (fun p => p.1 == k) = none :=
        List.find?_eq_none.mpr (by intro p hp; simp [hnod p hp])
      simp [h1, List.find?, BEq.refl]
    · have hbk : (k == k') = false := by simpa using hk
      simp only [hbk, Bool.false_eq_true, if_false]
      have h1 : List.find? (fun p : K × α => p.1 == k') [(k, v)] = none := by
        simp [List.find?, hbk]
      rw [h1]
      simp

theorem dlookup_dinsert_self [BEq K] [LawfulBEq K] (d : List (K × α)) (k : K) (v : α) :
    dlookup (dinsert d k v) k = some v := by
  rw [dlookup_dinsert]
  simp

theorem dlookup_dinsert_ne [BEq K] [LawfulBEq K] (d : List (K × α)) (k k' : K) (v : α)
    (h : ¬ k = k') : dlookup (dinsert d k v) k' = dlookup d k' := by
  rw [dlookup_dinsert]
  simp [h]

theorem dcontains_dinsert [BEq K] [LawfulBEq K] (d : List (K × α)) (k k' : K) (v : α) :
    dcontains (dinsert d k v) k' = (k == k' || dcontains d k') := by
  rw [← dlookup_isSome, dlookup_dinsert, ← dlookup_isSome]
  by_cases hk : k == k' <;> simp [hk]

theorem mem_dinsert [BEq K] [LawfulBEq K] (d : List (K × α)) (k : K) (v : α) (p : K × α)
    (h : p ∈ dinsert d k v) : p ∈ d ∨ p = (k, v) := by
  unfold dinsert at h
  by_cases hc : d.any (fun q => q.1 == k)
  · rw [if_pos hc] at h
    obtain ⟨q, hq, hqe⟩ := List.mem_map.mp h
    by_cases hqk : q.1 == k
    · right
      rw [← hqe]
      simp [hqk]
    · left
      rw [← hqe]
      simpa [hqk] using hq
  · rw [if_neg hc] at h
    rcases List.mem_append.mp h with h | h
    · exact Or.inl h
    · right
      simpa using h

theorem builddict_fold_dcontains (uri : String) (names : List String)
    (acc : List (String × String)) (k : String) :
    dcontains (names.foldl (fun a n => dinsert a n (uri ++ "/" ++ n)) acc) k =
      (dcontains acc k || names.any (fun n => n == k)) := by
  induction names generalizing acc with
  | nil => simp
  | cons n rest ih =>
    simp only [List.foldl_cons, List.any_cons]
    rw [ih, dcontains_dinsert]
    cases hnk : (n == k) <;> cases hacc : dcontains acc k <;> simp

theorem dcontains_builddict (uri : String) (names : List String) (k : String) :
    dcontains (builddict uri names) k = names.any (fun n => n == k) := by
  unfold builddict
  rw [builddict_fold_dcontains]
  simp [dcontains]

theorem builddict_fold_val (uri : String) (names : List String)
    (acc : List (String × String))
    (hacc : ∀ p ∈ acc, p.2 = uri ++ "/" ++ p.1) :
    ∀ p ∈ names.foldl (fun a n => dinsert a n (uri ++ "/" ++ n)) acc,
      p.2 = uri ++ "/" ++ p.1 := by
  induction names generalizing acc with
  | nil => simpa using hacc
  | cons n rest ih =>
    simp only [List.foldl_cons]
    apply ih
    intro p hp
    rcases mem_dinsert _ _ _ _ hp with h | h
    · exact hacc p h
    · rw [h]

theorem builddict_val (uri : String) (names : List String) :
    ∀ p ∈ builddict uri names, p.2 = uri ++ "/" ++ p.1 :=
  builddict_fold_val uri names [] (by simp)

/-- The sole/first requested database name. -/
def firstName : DbName → String
  | .str s => s
  | .list names => names.headD ""
  | .tuple names => names.headD ""
  | .set names => names.headD ""
  | .pynone => ""

/-- Whether `default` is among the requested names. -/
def namesContainDefault : DbName → Bool
  | .str s => s == "default"
  | .list names => names.any (fun n => n == "default")
  | .tuple names => names.any (fun n => n == "default")
  | .set names => names.any (fun n => n == "default")
  | .pynone => false

/-- C3 (counterexample): for a non-empty `set` of names that does not
contain `default`, `get_uris` produces no URI mapping at all: the
`db_name[0]` indexing raises `TypeError`. -/
theorem get_uris_set_counterexample :
    get_uris "sqlite" "/tmp" Option.none (DbName.set ["a"]) Option.none Option.none =
      .error (.typeError "set object is not subscriptable") := by decide

/-- C3 (amended): for an allowed kind, a non-empty host-or-path, and a
`db_name` that is a non-empty string or a non-empty list/tuple of names,
the URI mapping contains the key `default`; it aliases the sole name, the
first of multiple names when `default` is not among them, and the
`default` entry itself otherwise. -/
theorem get_uris_default_key (db_type host : String) (port : Option Nat)
    (user pw : Option String) (dn : DbName)
    (htype : db_type = "sqlite" ∨ db_type = "postgresql" ∨ db_type = "mysql")
    (hhost : host ≠ "")
    (hdn : (∃ s, dn = DbName.str s ∧ s ≠ "") ∨
      (∃ names, (dn = DbName.list names ∨ dn = DbName.tuple names) ∧ names ≠ [])) :
    ∃ d, get_uris db_type host port dn user pw = .ok d ∧
      dcontains d "default" = true ∧
      dlookup d "default" =
        some (build_base_uri db_type host port user pw ++ "/" ++
          (if namesContainDefault dn then "default" else firstName dn)) := by
  have htype' : (db_type == "") = false := by
    rcases htype with h | h | h <;> simp [h]
  have hhost' : (host == "") = false := by simpa using hhost
  have hseq : ∀ names : List String, names ≠ [] →
      ∃ d, get_uris_seq (build_base_uri db_type host port user pw) names = .ok d ∧
        dcontains d "default" = true ∧
        dlookup d "default" =
          some (build_base_uri db_type host port user pw ++ "/" ++
            (if names.any (fun n => n == "default") then "default" else names.headD "")) := by
    intro names hne
    have hlen : names.length > 0 := List.length_pos.mpr hne
    set uri := build_base_uri db_type host port user pw with huri
    by_cases hc : dcontains (builddict uri names) "default" = true
    · refine ⟨builddict uri names, ?_, hc, ?_⟩
      · unfold get_uris_seq
        rw [if_pos hlen]
        simp [hc]
      · have hany : names.any (fun n => n == "default") = true := by
          rw [← dcontains_builddict uri]
          exact hc
        rw [hany, if_pos rfl]
        have hsome : (dlookup (builddict uri names) "default").isSome = true := by
          rw [dlookup_isSome]
          exact hc
        obtain ⟨v, hv⟩ := Option.isSome_iff_exists.mp hsome
        have hmem := dlookup_mem _ _ _ hv
        have hval : v = uri ++ "/" ++ "default" := by
          simpa using builddict_val uri names _ hmem
        rw [hv, hval]
    · have hcf : dcontains (builddict uri names) "default" = false := by simpa using hc
      refine ⟨dinsert (builddict uri names) "default" (uri ++ "/" ++ names.headD ""), ?_, ?_, ?_⟩
      · unfold get_uris_seq
        rw [if_pos hlen]
        simp [hcf]
      · rw [dcontains_dinsert]
        simp
      · have hany : names.any (fun n => n == "default") = false := by
          rw [← dcontains_builddict uri]
          exact hcf
        rw [hany, if_neg (by simp)]
        exact dlookup_dinsert_self _ _ _
  rcases hdn with ⟨s, rfl, hs⟩ | ⟨names, hdl, hne⟩
  · have hfal : DbName.falsy (DbName.str s) = false := by simpa [DbName.falsy] using hs
    refine ⟨[("default", build_base_uri db_type host port user pw ++ "/" ++ s)], ?_, ?_, ?_⟩
    · unfold get_uris
      rw [htype', hhost', hfal]
      simp
    · simp [dcontains]
    · simp only [namesContainDefault, firstName]
      by_cases hsd : s = "default"
      · subst hsd
        simp [dlookup, List.find?]
      · have : (s == "default") = false := by simpa using hsd
        rw [this]
        simp [dlookup, List.find?]
  · have hfal : DbName.falsy dn = false := by
      rcases hdl with rfl | rfl <;> simpa [DbName.falsy] using hne
    obtain ⟨d, hseq1, hseq2, hseq3⟩ := hseq names hne
    refine ⟨d, ?_, hseq2, ?_⟩
    · unfold get_uris
      rcases hdl with rfl | rfl <;>
        · rw [htype', hhost', hfal]
          simpa using hseq1
    · rcases hdl with rfl | rfl <;> simpa [namesContainDefault, firstName] using hseq3

/-- C3 (witness): a concrete one-name construction whose URI mapping
contains `default`. -/
theorem get_uris_default_key_witness :
    ∃ d, get_uris "sqlite" "/data" Option.none (DbName.str "app") Option.none Option.none = .ok d ∧
      dcontains d "default" = true ∧
      dlookup d "default" =
        some (build_base_uri "sqlite" "/data" Option.none Option.none Option.none ++ "/" ++
          (if namesContainDefault (DbName.str "app") then "default"
            else firstName (DbName.str "app"))) :=
  get_uris_default_key "sqlite" "/data" Option.none Option.none Option.none
    (DbName.str "app") (Or.inl rfl) (by decide) (Or.inl ⟨"app", rfl, by decide⟩)

/-- C4 (counterexample): with a user and no password, the produced URI
embeds the user (`postgresql://u@h/d`); with no user at all it is
`postgresql://h/d` — credential text does appear when only the password
is missing. -/
theorem get_uris_cred_counterexample :
    get_uris "postgresql" "h" Option.none (DbName.str "d") (some "u") Option.none =
      .ok [("default", "postgresql://u@h/d")] ∧
    get_uris "postgresql" "h" Option.none (DbName.str "d") Option.none Option.none =
      .ok [("default", "postgresql://h/d")] := by
  constructor <;> decide

/-- C4 (amended): for server kinds, the password is embedded only when
both user and password are truthy; the user alone is embedded whenever
it is truthy, even with no password; with no (truthy) user, no credential
text appears at all. -/
theorem build_base_uri_credentials (db_type host : String) (port : Option Nat)
    (user pw : Option String) (hserver : db_type ≠ "sqlite") :
    (truthyS user = false →
      build_base_uri db_type host port user pw =
        db_type ++ "://" ++ "" ++ host ++ portPart port) ∧
    (∀ u, user = some u → u ≠ "" → truthyS pw = false →
      build_base_uri db_type host port user pw =
        db_type ++ "://" ++ (u ++ "@") ++ host ++ portPart port) ∧
    (∀ u p, user = some u → u ≠ "" → pw = some p → p ≠ "" →
      build_base_uri db_type host port user pw =
        db_type ++ "://" ++ (u ++ (":" ++ p) ++ "@") ++ host ++ portPart port) := by
  have hsrv : (db_type == "sqlite") = false := by simpa using hserver
  refine ⟨?_, ?_, ?_⟩
  · intro hu
    unfold build_base_uri
    rw [hsrv]
    simp [hu]
  · intro u hu hune hpw
    unfold build_base_uri
    rw [hsrv]
    have hut : truthyS (some u) = true := by simp [truthyS, hune]
    simp [hu, hut, hpw]
  · intro u p hu hune hp hpne
    unfold build_base_uri
    rw [hsrv]
    have hut : truthyS (some u) = true := by simp [truthyS, hune]
    have hpt : truthyS (some p) = true := by simp [truthyS, hpne]
    simp [hu, hut, hp, hpt]

/-- C4 (witness): concrete instances of the three credential cases for
`mysql` on `host`. -/
theorem build_base_uri_credentials_witness :
    build_base_uri "mysql" "host" Option.none Option.none (some "pw") =
      "mysql" ++ "://" ++ "" ++ "host" ++ portPart Option.none ∧
    build_base_uri "mysql" "host" Option.none (some "u") Option.none =
      "mysql" ++ "://" ++ ("u" ++ "@") ++ "host" ++ portPart Option.none ∧
    build_base_uri "mysql" "host" Option.none (some "u") (some "pw") =
      "mysql" ++ "://" ++ ("u" ++ (":" ++ "pw") ++ "@") ++ "host" ++ portPart Option.none :=
  ⟨(build_base_uri_credentials "mysql" "host" Option.none Option.none (some "pw")
      (by decide)).1 (by decide),
   (build_base_uri_credentials "mysql" "host" Option.none (some "u") Option.none
      (by decide)).2.1 "u" rfl (by decide) (by decide),
   (build_base_uri_credentials "mysql" "host" Option.none (some "u") (some "pw")
      (by decide)).2.2 "u" "pw" rfl (by decide) rfl (by decide)⟩

/-- Python `x or "default"` composed once more never changes the name:
the resolved engine name is never empty. -/
theorem pyOr_idem (o : Option String) :
    pyOr (some (pyOr o "default")) "default" = pyOr o "default" := by
  cases o with
  | none => simp [pyOr]
  | some s =>
    by_cases hs : s == "" <;> simp [pyOr, hs]

/-- C1: for a valid engine name, the transactional scope commits and
closes on normal completion of the block; on `InvalidRequestError` it
rolls back, closes, and exits normally (the fault is swallowed); on any
other fault it rolls back, closes, and re-raises; in every outcome the
last session event is `close`. -/
theorem session_scope_contract (c : Connector) (engine_name schema_name : Option String)
    (h : dcontains c.engines (pyOr engine_name "default") = true) :
    (session_scope c engine_name schema_name .ok).1 =
      .ok ([.commit, .close], .normal) ∧
    (session_scope c engine_name schema_name .invalidRequest).1 =
      .ok ([.rollback, .close], .normal) ∧
    (session_scope c engine_name schema_name .otherError).1 =
      .ok ([.rollback, .close], .raised) ∧
    (∀ b, ∃ evs ex, (session_scope c engine_name schema_name b).1 = .ok (evs, ex) ∧
      evs.getLast? = some .close) := by
  have hsome : (dlookup c.engines (pyOr engine_name "default")).isSome = true := by
    rw [dlookup_isSome]
    exact h
  obtain ⟨e, he⟩ := Option.isSome_iff_exists.mp hsome
  refine ⟨?_, ?_, ?_, ?_⟩
  · simp [session_scope, he]
  · simp [session_scope, he]
  · simp [session_scope, he]
  · intro b
    cases b
    · exact ⟨[.commit, .close], .normal, by simp [session_scope, he], rfl⟩
    · exact ⟨[.rollback, .close], .normal, by simp [session_scope, he], rfl⟩
    · exact ⟨[.rollback, .close], .raised, by simp [session_scope, he], rfl⟩

/-- C1 (witness): the scope on the concrete one-engine connector. -/
theorem session_scope_contract_witness :
    (session_scope conn0 Option.none Option.none .ok).1 =
      .ok ([.commit, .close], .normal) :=
  (session_scope_contract conn0 Option.none Option.none (by decide)).1

/-- C2: a decorated operation called with a session in `kwargs` opens no
scope and performs no session event (exceptions propagate); called
without one, it opens a scope on `db_name or "default"` with the given
`schema_name`, and that scope performs the commit/rollback/close
events of C1. -/
theorem manage_session_contract (c : Connector) (db_name schema_name : Option String)
    (b : BodyResult)
    (h : dcontains c.engines (pyOr db_name "default") = true) :
    (manage_session_call c true db_name schema_name b).1 =
      .ok { scopeOpened := Option.none, events := [],
            exit := match b with
              | .ok => .normal
              | .invalidRequest => .raised
              | .otherError => .raised } ∧
    (manage_session_call c false db_name schema_name b).1 =
      .ok { scopeOpened := some (pyOr db_name "default", schema_name),
            events := match b with
              | .ok => [.commit, .close]
              | .invalidRequest => [.rollback, .close]
              | .otherError => [.rollback, .close],
            exit := match b with
              | .ok => .normal
              | .invalidRequest => .normal
              | .otherError => .raised } := by
  have hsome : (dlookup c.engines (pyOr db_name "default")).isSome = true := by
    rw [dlookup_isSome]
    exact h
  obtain ⟨e, he⟩ := Option.isSome_iff_exists.mp hsome
  constructor
  · simp [manage_session_call]
  · cases b <;> simp [manage_session_call, session_scope, pyOr_idem, he]

/-- C2 (witness): a decorated call on the concrete connector with no
session supplied opens the scope on `default` and commits. -/
theorem manage_session_contract_witness :
    (manage_session_call conn0 false Option.none Option.none .ok).1 =
      .ok { scopeOpened := some (pyOr Option.none "default", Option.none),
            events := [.commit, .close], exit := .normal } :=
  (manage_session_contract conn0 Option.none Option.none .ok (by decide)).2

/-- C5: any `limit` above 1000 makes `list_resources` fail with the
bounds `ValueError`, whatever rows the query would produce and before
the query is composed or evaluated. -/
theorem list_resources_limit_bound {α : Type} (rows : List α) (limit offset : Nat)
    (h : limit > 1000) :
    list_resources rows limit offset = .error (.valueError "Limit out of bounds") := by
  unfold list_resources
  rw [if_pos h]

/-- C5 (witness): `limit = 1001` is rejected on concrete data. -/
theorem list_resources_limit_bound_witness :
    list_resources [0, 1, 2] 1001 0 = .error (.valueError "Limit out of bounds") :=
  list_resources_limit_bound [0, 1, 2] 1001 0 (by decide)

/-- C6: below the bound, when a limit or an offset is requested the
count in `compose_filter_query` is taken on the un-sliced rows and
`list_resources` returns that pre-pagination count as `total`; when
neither is requested, the returned `total` is the length of the returned
page (which is the full row list). -/
theorem list_resources_total {α : Type} (rows : List α) (limit offset : Nat)
    (h : limit ≤ 1000) :
    ((limit ≠ 0 ∨ offset ≠ 0) →
      (compose_filter_query rows limit offset).1 = rows.length ∧
      ∃ page, list_resources rows limit offset = .ok (rows.length, page)) ∧
    ((limit = 0 ∧ offset = 0) →
      list_resources rows limit offset = .ok (rows.length, rows)) := by
  have hnot : ¬ limit > 1000 := by omega
  constructor
  · intro hreq
    have hcond : (limit != 0 || offset != 0) = true := by
      rcases hreq with h0 | h0 <;> simp [bne_iff_ne, h0]
    have hfst : (compose_filter_query rows limit offset).1 = rows.length := by
      unfold compose_filter_query
      rw [hcond]
      simp
    refine ⟨hfst, ?_⟩
    unfold list_resources
    rw [if_neg hnot]
    by_cases hz : rows.length = 0
    · have hnil : rows = [] := List.length_eq_zero.mp hz
      subst hnil
      refine ⟨[], ?_⟩
      simp [compose_filter_query, hcond]
    · have hz' : (rows.length == 0) = false := by simpa using hz
      refine ⟨(compose_filter_query rows limit offset).2, ?_⟩
      rw [← hfst]
      simp [hfst, hz']
  · rintro ⟨hl, ho⟩
    subst hl
    subst ho
    unfold list_resources
    rw [if_neg hnot]
    simp [compose_filter_query]

/-- C6 (witness): a page of size 2 out of 3 rows reports `total = 3`,
and the unpaginated call reports `total = 3` with all rows. -/
theorem list_resources_total_witness :
    ((compose_filter_query ["a", "b", "c"] 2 0).1 = 3 ∧
      ∃ page, list_resources ["a", "b", "c"] 2 0 = .ok (3, page)) ∧
    list_resources ["a", "b", "c"] 0 0 = .ok (3, ["a", "b", "c"]) :=
  ⟨(list_resources_total ["a", "b", "c"] 2 0 (by decide)).1 (Or.inl (by decide)),
   (list_resources_total ["a", "b", "c"] 0 0 (by decide)).2 ⟨rfl, rfl⟩⟩

theorem hasattr_setattr (e : Entity) (g : String) (w : Val) (f : String)
    (hg : hasattrE e g = true) : hasattrE (setattrE e g w) f = hasattrE e f := by
  unfold hasattrE setattrE at *
  rw [dcontains_dinsert]
  by_cases hgf : g = f
  · subst hgf
    simp [hg]
  · have hb : (g == f) = false := by simpa using hgf
    simp [hb]

theorem getattr_setattr_ne (e : Entity) (g : String) (w : Val) (f : String)
    (h : ¬ g = f) : getattrE (setattrE e g w) f = getattrE e f :=
  dlookup_dinsert_ne _ _ _ _ h

theorem getattr_setattr_self (e : Entity) (g : String) (w : Val) :
    getattrE (setattrE e g w) g = some w :=
  dlookup_dinsert_self _ _ _

theorem apply_fields_no_raise (upd : List (String × Val)) :
    ∀ r : Entity, (apply_fields r upd false).2.2 = Option.none := by
  induction upd with
  | nil => intro r; rfl
  | cons fv rest ih =>
    intro r
    obtain ⟨f, v⟩ := fv
    by_cases hf : hasattrE r f
    · simp [apply_fields, hf, ih]
    · simp [apply_fields, hf, ih]

theorem apply_fields_hasattr (upd : List (String × Val)) :
    ∀ (r : Entity) (b : Bool) (f : String),
      hasattrE (apply_fields r upd b).1 f = hasattrE r f := by
  induction upd with
  | nil => intro r b f; rfl
  | cons fv rest ih =>
    intro r b f
    obtain ⟨g, w⟩ := fv
    by_cases hg : hasattrE r g
    · simp only [apply_fields, hg, if_true]
      rw [ih (setattrE r g w) b f, hasattr_setattr r g w f hg]
    · cases b
      · simp [apply_fields, hg, ih]
      · simp [apply_fields, hg]

theorem apply_fields_absent (upd : List (String × Val)) :
    ∀ (r : Entity) (b : Bool) (f : String), hasattrE r f = false →
      getattrE (apply_fields r upd b).1 f = getattrE r f := by
  induction upd with
  | nil => intro r b f _; rfl
  | cons fv rest ih =>
    intro r b f hf
    obtain ⟨g, w⟩ := fv
    by_cases hg : hasattrE r g
    · have hgf : ¬ g = f := by
        intro he
        rw [he] at hg
        rw [hg] at hf
        exact Bool.noConfusion hf
      simp only [apply_fields, hg, if_true]
      have hf' : hasattrE (setattrE r g w) f = false := by
        rw [hasattr_setattr r g w f hg]
        exact hf
      rw [ih (setattrE r g w) b f hf', getattr_setattr_ne r g w f hgf]
    · cases b
      · simp only [apply_fields, hg, Bool.false_eq_true, if_false]
        exact ih r false f hf
      · simp [apply_fields, hg]

theorem apply_fields_not_key (upd : List (String × Val)) :
    ∀ (r : Entity) (b : Bool) (f : String), f ∉ upd.map Prod.fst →
      getattrE (apply_fields r upd b).1 f = getattrE r f := by
  induction upd with
  | nil => intro r b f _; rfl
  | cons fv rest ih =>
    intro r b f hf
    obtain ⟨g, w⟩ := fv
    have hgf : ¬ g = f := by
      intro he
      exact hf (by simp [he])
    have hrest : f ∉ rest.map Prod.fst := by
      intro hm
      exact hf (by simp [hm])
    by_cases hg : hasattrE r g
    · simp only [apply_fields, hg, if_true]
      rw [ih (setattrE r g w) b f hrest, getattr_setattr_ne r g w f hgf]
    · cases b
      · simp only [apply_fields, hg, Bool.false_eq_true, if_false]
        exact ih r false f hrest
      · simp [apply_fields, hg]

theorem apply_fields_applied (upd : List (String × Val)) :
    ∀ r : Entity, (upd.map Prod.fst).Nodup →
      ∀ f v, (f, v) ∈ upd → hasattrE r f = true →
        getattrE (apply_fields r upd false).1 f = some v := by
  induction upd with
  | nil =>
    intro r _ f v hmem
    simp at hmem
  | cons fv rest ih =>
    intro r hnodup f v hmem hatt
    obtain ⟨g, w⟩ := fv
    have hnodup' : (rest.map Prod.fst).Nodup := by
      simpa [List.nodup_cons] using (List.nodup_cons.mp (by simpa using hnodup)).2
    rcases List.mem_cons.mp hmem with heq | hmem'
    · obtain ⟨hfg, hvw⟩ := Prod.mk.injEq .. ▸ heq
      subst hfg
      subst hvw
      have hfnot : f ∉ rest.map Prod.fst :=
        (List.nodup_cons.mp (by simpa using hnodup)).1
      simp only [apply_fields, hatt, if_true]
      rw [apply_fields_not_key rest (setattrE r f v) false f hfnot,
        getattr_setattr_self]
    · by_cases hg : hasattrE r g
      · simp only [apply_fields, hg, if_true]
        apply ih (setattrE r g w) hnodup' f v hmem'
        rw [hasattr_setattr r g w f hg]
        exact hatt
      · simp only [apply_fields, hg, Bool.false_eq_true, if_false]
        exact ih r hnodup' f v hmem' hatt

theorem apply_fields_bad_raises (upd : List (String × Val)) :
    ∀ r : Entity, (∃ p ∈ upd, hasattrE r p.1 = false) →
      ((apply_fields r upd true).2.2).isSome = true := by
  induction upd with
  | nil =>
    intro r hbad
    obtain ⟨p, hp, _⟩ := hbad
    simp at hp
  | cons fv rest ih =>
    intro r hbad
    obtain ⟨p, hp, hpf⟩ := hbad
    obtain ⟨g, w⟩ := fv
    by_cases hg : hasattrE r g
    · simp only [apply_fields, hg, if_true]
      apply ih (setattrE r g w)
      rcases List.mem_cons.mp hp with heq | hmem
    
      · exfalso
        rw [heq] at hpf
        rw [hpf] at hg
        exact Bool.noConfusion hg
      · refine ⟨p, hmem, ?_⟩
        rw [hasattr_setattr r g w p.1 hg]
        exact hpf
    · simp [apply_fields, hg]

theorem apply_fields_no_commit (upd : List (String × Val)) :
    ∀ (r : Entity) (b : Bool), SessOp.commitOp ∉ (apply_fields r upd b).2.1 := by
  induction upd with
  | nil =>
    intro r b
    simp [apply_fields]
  | cons fv rest ih =>
    intro r b
    obtain ⟨g, w⟩ := fv
    by_cases hg : hasattrE r g
    · simp only [apply_fields, hg, if_true]
      intro hmem
      rcases List.mem_cons.mp hmem with h | h
      · exact SessOp.noConfusion h
      · exact ih (setattrE r g w) b h
    · cases b
      · simp only [apply_fields, hg, Bool.false_eq_true, if_false]
        exact ih r false
      · simp [apply_fields, hg]

/-- C7: `update_resource` fails with `ValueError` when no row has the
primary key; otherwise (for a dict of updates, hence distinct field
names) with `raise_if_bad_field = False` it returns success, applies
every field the entity possesses, and leaves possessed-nowhere fields
unchanged; with the flag `True` an unknown field makes it fail; and in
no case does its session trace contain a commit. -/
theorem update_resource_contract (db : DB) (pk : Int) (upd : List (String × Val)) :
    (dbGet db pk = Option.none →
      ∀ b, update_resource db pk upd b =
        (.error (.valueError "No record with this pk"), db, [.queryGet])) ∧
    (∀ r, dbGet db pk = some r → (upd.map Prod.fst).Nodup →
      (update_resource db pk upd false).1 = .ok true ∧
      (∃ r', dbGet (update_resource db pk upd false).2.1 pk = some r' ∧
        (∀ f v, (f, v) ∈ upd → hasattrE r f = true → getattrE r' f = some v) ∧
        (∀ f, hasattrE r f = false → getattrE r' f = getattrE r f)) ∧
      ((∃ p ∈ upd, hasattrE r p.1 = false) →
        ∃ e, (update_resource db pk upd true).1 = .error e)) ∧
    (∀ b, SessOp.commitOp ∉ (update_resource db pk upd b).2.2) := by
  refine ⟨?_, ?_, ?_⟩
  · intro h b
    simp [update_resource, h]
  · intro r hr hnodup
    have hnone := apply_fields_no_raise upd r
    refine ⟨?_, ?_, ?_⟩
    · simp [update_resource, hr, hnone]
    · refine ⟨(apply_fields r upd false).1, ?_, ?_, ?_⟩
      · simp only [update_resource, hr, hnone]
        exact dlookup_dinsert_self _ _ _
      · intro f v hmem hatt
        exact apply_fields_applied upd r hnodup f v hmem hatt
      · intro f hf
        exact apply_fields_absent upd r false f hf
    · intro hbad
      have hsome := apply_fields_bad_raises upd r hbad
      obtain ⟨e, he⟩ := Option.isSome_iff_exists.mp hsome
      refine ⟨e, ?_⟩
      simp [update_resource, hr, he]
  · intro b
    cases hr : dbGet db pk with
    | none => simp [update_resource, hr]
    | some r =>
      cases herr : (apply_fields r upd b).2.2 with
      | none =>
        simp only [update_resource, hr, herr]
        intro hmem
        rcases List.mem_cons.mp hmem with h | h
        · exact SessOp.noConfusion h
        · exact apply_fields_no_commit upd r b h
      | some e =>
        simp only [update_resource, hr, herr]
        intro hmem
        rcases List.mem_cons.mp hmem with h | h
        · exact SessOp.noConfusion h
        · exact apply_fields_no_commit upd r b h

/-- C7 (witness): updating a concrete found row with one known and one
unknown field, flag off, succeeds. -/
theorem update_resource_contract_witness :
    (update_resource [(1, Entity.mk [("a", "x")])] 1 [("a", "y"), ("b", "z")] false).1 =
      .ok true :=
  ((update_resource_contract [(1, Entity.mk [("a", "x")])] 1 [("a", "y"), ("b", "z")]).2.1
    (Entity.mk [("a", "x")]) (by decide) (by decide)).1

/-- C8: deleting an absent primary key succeeds with `True`, leaves the
session state untouched, marks nothing for deletion, and doing it again
gives the identical outcome. -/
theorem delete_resource_absent (db : DB) (pk : Int)
    (h : dbGet db pk = Option.none) :
    delete_resource db pk = (.ok true, db, [.queryGet]) ∧
    delete_resource (delete_resource db pk).2.1 pk = delete_resource db pk := by
  have h1 : delete_resource db pk = (.ok true, db, [.queryGet]) := by
    simp [delete_resource, h]
  exact ⟨h1, by rw [h1]; exact h1⟩

/-- C8 (witness): deleting pk 2 from a table holding only pk 1. -/
theorem delete_resource_absent_witness :
    delete_resource [(1, Entity.mk [("a", "x")])] 2 =
      (.ok true, [(1, Entity.mk [("a", "x")])], [.queryGet]) :=
  (delete_resource_absent [(1, Entity.mk [("a", "x")])] 2 (by decide)).1

/-- C9: construction is the only point that populates the engine
mapping (one non-disposed engine per connection URI); the transactional
scope, raw query execution, table creation and the decorated CRUD calls
leave the whole connector — hence the engine mapping — unchanged; and
`kill` disposes every engine while keeping the mapping keys in place. -/
theorem engines_invariant (c : Connector) :
    (∀ t h n po s u pw conn, SQLConnector_init t h n po s u pw = .ok conn →
      conn.engines = conn.connection_uris.map (fun p => (p.1, { disposed := false }))) ∧
    (∀ en sn b, (session_scope c en sn b).2 = c) ∧
    (∀ q en rows, (execute_query c q en rows).2 = c) ∧
    (∀ s, (create_tables c s).2 = c) ∧
    (∀ hs dn sn b, (manage_session_call c hs dn sn b).2 = c) ∧
    ((kill c).engines.map Prod.fst = c.engines.map Prod.fst) ∧
    (∀ p ∈ (kill c).engines, p.2.disposed = true) := by
  refine ⟨?_, ?_, ?_, ?_, ?_, ?_, ?_⟩
  · intro t h n po s u pw conn hinit
    unfold SQLConnector_init at hinit
    split at hinit
    · exact Except.noConfusion hinit
    · split at hinit
      · split at hinit
        · exact Except.noConfusion hinit
        · split at hinit
          · exact Except.noConfusion hinit
          · cases hinit
            rfl
      · exact Except.noConfusion hinit
  · intro en sn b
    unfold session_scope
    cases hdl : dlookup c.engines (pyOr en "default") with
    | none => simp [hdl]
    | some e => cases b <;> simp [hdl]
  · intro q en rows
    unfold execute_query
    cases hdl : dlookup c.engines (en.getD "default") with
    | none => simp [hdl]
    | some e =>
      simp only [hdl]
      split <;> rfl
  · intro s
    unfold create_tables
    cases s with
    | none =>
      cases hcs : c.schemas with
      | none => simp [hcs]
      | some scs => simp [hcs]
    | some l =>
      by_cases hl : l.isEmpty
      · simp only [hl, if_true]
        cases hcs : c.schemas with
        | none => simp [hcs]
        | some scs => simp [hcs]
      · simp only [hl, Bool.false_eq_true, if_false]
        cases hcs : c.schemas with
        | none => simp [hcs]
        | some scs => simp [hcs]
  · intro hs dn sn b
    unfold manage_session_call
    by_cases hh : hs
    · simp [hh]
    · simp only [hh, Bool.false_eq_true, if_false]
      split <;> rfl
  · unfold kill
    simp [List.map_map]
  · intro p hp
    unfold kill at hp
    simp only [List.mem_map] at hp
    obtain ⟨q, _, hq⟩ := hp
    rw [← hq]

/-- C9 (witness): after `kill` on the concrete connector, its (only)
engine entry is disposed. -/
theorem engines_invariant_witness :
    (("default", Engine.mk true) : String × Engine).2.disposed = true :=
  (engines_invariant conn0).2.2.2.2.2.2 ("default", Engine.mk true) (by decide)

/-- C10: for every query, every registered engine name and whatever rows
the database would return, `execute_query` returns `None`: the
returning branch is dead because the probed attribute name
`".fetch_all()"` is not an attribute of the result object. -/
theorem execute_query_returns_none (c : Connector) (query : String)
    (engine_name : Option String) (backendRows : List (List String))
    (h : dcontains c.engines (engine_name.getD "default") = true) :
    (execute_query c query engine_name backendRows).1 = .ok Option.none ∧
    hasattr_result ".fetch_all()" = false := by
  have hsome : (dlookup c.engines (engine_name.getD "default")).isSome = true := by
    rw [dlookup_isSome]
    exact h
  obtain ⟨e, he⟩ := Option.isSome_iff_exists.mp hsome
  have hfa : hasattr_result ".fetch_all()" = false := by decide
  constructor
  · simp [execute_query, he, hfa]
  · exact hfa

/-- C10 (witness): a concrete query against the registered `default`
engine yields `None` even when the database would produce a row. -/
theorem execute_query_returns_none_witness :
    (execute_query conn0 "SELECT 1" Option.none [["1"]]).1 = .ok Option.none :=
  (execute_query_returns_none conn0 "SELECT 1" Option.none [["1"]] (by decide)).1
